import Mathlib

/-!
Verification of the Lumina gateway core.

This file shallowly embeds the request-pipeline core of the Lumina
reverse-proxying LLM gateway (Go sources under `apps/gateway/internal`)
and proves, or refutes, the specification claims about it.

Modelling conventions:
* Go strings are modelled as Lean `String` / `List Char`.
* Go `float64` amounts (spend, budget, cost) are modelled as exact
  rationals `ℚ`; the claims under scrutiny concern the cost formula and
  spend bookkeeping, not IEEE rounding.
* Go byte slices are modelled as `List Nat`.
* Fallible Go calls return `Except String _` or `Option _`.
* External stores (Redis cache, Postgres rows, provider table) are
  modelled as explicit state carried by a `World` structure; a fallible
  cache read is a function into `Except` so that cache faults can be
  injected per key.
-/

namespace Lumina

/-! ### Glob matching (`path/filepath.Match` as used by `matchModelPattern`)

`matchModelPattern` in `auth/virtual_key.go` calls `filepath.Match` and
treats a pattern error as "no glob match" (`err == nil && matched`).
`goMatch` below embeds exactly that observable: it returns `true` iff
`filepath.Match` (on a Unix separator `/`) returns `matched = true` with
no error.  Semantics of the pattern language: `*` matches any run of
non-separator characters, `?` one non-separator character, `[...]` a
character class (optionally negated with `^`, with `lo-hi` ranges and
`\`-escapes), `\c` the literal character `c`; a malformed pattern never
matches. -/

/-- Character that the separator-aware wildcards refuse to cross
(`filepath.Separator` on Unix). -/
def isSep (c : Char) : Bool := c == '/'

/-- One class element, as read by Go's `getEsc`: rejects `-` and `]` in
lead position, undoes a backslash escape, and fails when the class is
left unterminated (nothing follows the element). -/
def classElem : List Char → Option (Char × List Char)
  | [] => none
  | c :: rest =>
    if c = '-' ∨ c = ']' then none
    else if c = '\\' then
      match rest with
      | [] => none
      | d :: rest2 => if rest2.isEmpty then none else some (d, rest2)
    else if rest.isEmpty then none else some (c, rest)

/-- Parse the body of a `[...]` class (the part after `[` and after an
optional `^`) into `lo-hi` ranges, mirroring the range loop of Go's
`matchChunk`: a `]` terminates the class only once at least one range
has been read.  Returns the ranges and the unconsumed pattern, or `none`
for a malformed class.  Fuel is an upper bound on the loop trip count;
every iteration consumes at least one character, so
`chunk.length + 1` is always sufficient. -/
def parseRangesF : Nat → List Char → List (Char × Char) →
    Option (List (Char × Char) × List Char)
  | 0, _, _ => none
  | fuel + 1, chunk, acc =>
    match chunk with
    | ']' :: rest =>
      if acc.isEmpty then none else some (acc.reverse, rest)
    | _ =>
      match classElem chunk with
      | none => none
      | some (lo, rest1) =>
        match rest1 with
        | '-' :: rest2 =>
          match classElem rest2 with
          | none => none
          | some (hi, rest3) => parseRangesF fuel rest3 ((lo, hi) :: acc)
        | _ => parseRangesF fuel rest1 ((lo, lo) :: acc)

/-- Parse a full `[...]` class body: optional leading `^` negation, then
the ranges. -/
def parseClass (chunk : List Char) :
    Option (Bool × List (Char × Char) × List Char) :=
  match chunk with
  | '^' :: rest =>
    match parseRangesF (rest.length + 1) rest [] with
    | none => none
    | some (ranges, rest2) => some (true, ranges, rest2)
  | _ =>
    match parseRangesF (chunk.length + 1) chunk [] with
    | none => none
    | some (ranges, rest2) => some (false, ranges, rest2)

/-- Does character `c` fall in one of the class ranges? -/
def inRanges (ranges : List (Char × Char)) (c : Char) : Bool :=
  ranges.any fun lh => lh.1 ≤ c ∧ c ≤ lh.2

/-- The glob matcher: `goMatch pattern name` is `true` iff Go's
`filepath.Match pattern name` returns `(true, nil)`. -/
def goMatch : List Char → List Char → Bool
  | [], name => name.isEmpty
  | '*' :: ps, name =>
    goMatch ps name ||
      (match name with
       | [] => false
       | c :: rest => !isSep c && goMatch ('*' :: ps) rest)
  | '?' :: ps, name =>
    (match name with
     | [] => false
     | c :: rest => !isSep c && goMatch ps rest)
  | '[' :: ps, name =>
    (match name with
     | [] => false
     | c :: rest =>
       match parseClass ps with
       | none => false
       | some (neg, ranges, ps2) =>
         (inRanges ranges c != neg) && goMatch ps2 rest)
  | '\\' :: ps, name =>
    (match ps with
     | [] => false
     | p :: ps2 =>
       match name with
       | [] => false
       | c :: rest => p == c && goMatch ps2 rest)
  | p :: ps, name =>
    (match name with
     | [] => false
     | c :: rest => p == c && goMatch ps rest)
  termination_by pattern name => (name.length, pattern.length)
  decreasing_by all_goals simp_wf; omega

/-- Is the last character of the pattern a `*`
(Go `strings.HasSuffix(pattern, "*")`)? -/
def lastIsStar (l : List Char) : Bool :=
  match l.getLast? with
  | some c => c == '*'
  | none => false

/-- Embedding of `matchModelPattern` (auth/virtual_key.go): a `*`
pattern matches everything; otherwise try the glob; otherwise a pattern
ending in `*` also matches by literal prefix of its un-starred part
(Go `strings.TrimSuffix(pattern, "*")` drops the one trailing star). -/
def matchModelPattern (pattern model : String) : Bool :=
  if pattern = "*" then true
  else if goMatch pattern.toList model.toList then true
  else if lastIsStar pattern.toList then
    pattern.toList.dropLast.isPrefixOf model.toList
  else false

/-! ### Data model (`models/models.go`) -/

/-- Embedding of `models.KeyConfig`, the denormalised hot-path
projection cached in Redis.  The Go `map[string]string` of provider
secrets is modelled as an association list (the `(user, provider)`
uniqueness constraint keeps it duplicate-free). -/
structure KeyConfig where
  keyID : String
  userID : String
  name : String
  allowedModels : List String
  providers : List (String × String)
  budgetLimit : Option ℚ
  currentSpend : ℚ
  deriving DecidableEq

/-- Embedding of `models.VirtualKey` (durable row).  `revokedAt` is the
nullable revocation stamp, with time modelled as a rational. -/
structure VirtualKey where
  id : String
  userID : String
  name : String
  keyHash : String
  allowedModels : List String
  budgetLimit : Option ℚ
  currentSpend : ℚ
  revokedAt : Option ℚ
  deriving DecidableEq

/-- Embedding of `models.UserProvider` (account-level sealed
credential). -/
structure UserProviderRec where
  userID : String
  provider : String
  apiKeyEncrypted : List Nat
  deriving DecidableEq

/-- Embedding of `models.UsageLog`. -/
structure UsageLog where
  promptTokens : Int
  completionTokens : Int
  totalTokens : Int
  deriving DecidableEq

/-- Embedding of `models.UpdateKeyRequest`: a partial patch; `none`
means the field was absent from the JSON body (Go `nil` pointer /
`nil` slice). -/
structure UpdateKeyRequest where
  name : Option String
  allowedModels : Option (List String)
  budgetLimit : Option ℚ
  deriving DecidableEq

/-! ### Key service policy operations (`auth/virtual_key.go`) -/

/-- Embedding of `KeyService.IsModelAllowed`: an empty pattern list
allows every model, otherwise some pattern must match. -/
def IsModelAllowed (config : KeyConfig) (model : String) : Bool :=
  if config.allowedModels.isEmpty then true
  else config.allowedModels.any fun pattern => matchModelPattern pattern model

/-- Embedding of `KeyService.GetProviderKey`: look the provider up in
the config's secret map (`Option` replaces `ErrProviderNotFound`). -/
def GetProviderKey (config : KeyConfig) (provider : String) : Option String :=
  (config.providers.find? fun pr => pr.1 = provider).map (·.2)

/-- Embedding of `KeyService.CheckBudget`: no cap means no check;
otherwise fail with `budget limit exceeded` when
`current spend + estimated cost` strictly exceeds the cap. -/
def CheckBudget (config : KeyConfig) (estimatedCost : ℚ) : Except String Unit :=
  match config.budgetLimit with
  | none => Except.ok ()
  | some limit =>
    if config.currentSpend + estimatedCost > limit then
      Except.error "budget limit exceeded"
    else Except.ok ()

/-! ### Crypto wrapper (`KeyService.Encrypt` / `KeyService.Decrypt`)

The Go code seals provider credentials with AES-256-GCM from
`crypto/cipher`.  The cipher itself is an external primitive; it is
modelled as an abstract authenticated-encryption scheme over byte lists,
and the claims about the repository's wrapper code are proved under the
scheme's documented contract (round-trip and authentication).  The
wrapper logic itself — nonce prepending, the minimum-length check, the
take/drop split — is translated from the source. -/

/-- An authenticated-encryption scheme with a fixed key, as exposed by
`cipher.AEAD`: `Seal nonce plaintext` returns the ciphertext-and-tag,
`Open nonce data` authenticates and decrypts. -/
structure AEAD where
  nonceSize : Nat
  Seal : List Nat → List Nat → List Nat
  Open : List Nat → List Nat → Option (List Nat)

/-- Embedding of `KeyService.Encrypt`: a fresh nonce (passed explicitly,
since randomness is external) is prepended to the sealed payload —
Go's `gcm.Seal(nonce, nonce, plaintext, nil)` appends to `dst = nonce`. -/
def Encrypt (g : AEAD) (nonce plaintext : List Nat) : List Nat :=
  nonce ++ g.Seal nonce plaintext

/-- Embedding of `KeyService.Decrypt`: reject anything shorter than the
nonce, split off the nonce, and open the remainder. -/
def Decrypt (g : AEAD) (ciphertext : List Nat) : Option (List Nat) :=
  if ciphertext.length < g.nonceSize then none
  else g.Open (ciphertext.take g.nonceSize) (ciphertext.drop g.nonceSize)

/-- Authentication tag of the ideal reference scheme below: a number
that determines nonce and plaintext. -/
def sealTag (nonce plaintext : List Nat) : Nat :=
  Nat.pair (Encodable.encode nonce) (Encodable.encode plaintext)

/-- A perfectly authenticating reference scheme: the sealed payload is
the tag written twice, so any single-position change breaks the
duplication and any nonce change breaks the tag check.  It realises the
AEAD contract exactly and instantiates the abstract scheme in concrete
evaluations. -/
def gIdeal : AEAD where
  nonceSize := 12
  Seal := fun nonce plaintext => [sealTag nonce plaintext, sealTag nonce plaintext]
  Open := fun nonce c =>
    match c with
    | [x, y] =>
      if x = y ∧ x.unpair.1 = Encodable.encode nonce then
        some (Denumerable.ofNat (List ℕ) x.unpair.2)
      else none
    | _ => none

/-! ### Key service state operations (`auth/virtual_key.go`,
`database/postgres.go`)

The durable store is a list of `VirtualKey` rows plus a list of
provider-credential rows; the cache is a function from key hash to a
fallible lookup result, so cache faults can be injected per hash.
`ValidateKey`'s write-back of a freshly built config to the cache is a
side effect whose failure the source swallows (`// Log but don't
fail`), so it does not appear in the returned value. -/

/-- The gateway-visible state: cache, virtual-key rows, provider
credential rows. -/
structure World where
  cache : String → Except String (Option KeyConfig)
  dbRows : List VirtualKey
  dbProviders : List UserProviderRec

/-- Embedding of `DB.GetVirtualKeyByHash`: the SQL filters
`key_hash = $1 AND revoked_at IS NULL`, so a revoked row is never
returned. -/
def GetVirtualKeyByHash (rows : List VirtualKey) (keyHash : String) :
    Option VirtualKey :=
  rows.find? fun k => k.keyHash == keyHash && k.revokedAt.isNone

/-- Result of `KeyService.ValidateKey`: a config, or one of the
structured errors of the source (`ErrInvalidKey`, `ErrKeyRevoked`, the
wrapped cache error, the wrapped decryption error). -/
inductive ValidateResult
  | ok (config : KeyConfig)
  | errInvalidKey
  | errKeyRevoked
  | errCache (msg : String)
  | errDecryption
  deriving DecidableEq

/-- Decrypt every provider credential, failing fast on the first
decryption error, as the loop in `ValidateKey` does. -/
def decryptAll (decrypt : List Nat → Option String) :
    List UserProviderRec → Option (List (String × String))
  | [] => some []
  | p :: rest =>
    match decrypt p.apiKeyEncrypted with
    | none => none
    | some realAPIKey =>
      match decryptAll decrypt rest with
      | none => none
      | some tail => some ((p.provider, realAPIKey) :: tail)

/-- Embedding of `KeyService.ValidateKey`.  The token must carry the
`lum_` tag; the cache is consulted first and a cache **error** is
returned as a fatal wrapped error (only a cache *miss* falls through to
the durable store); a missing row is `errInvalidKey`; the
`errKeyRevoked` branch is kept from the source even though
`GetVirtualKeyByHash` already filters revoked rows; provider
credentials are decrypted with a fatal error on failure.  `decrypt` is
`KeyService.Decrypt` under the master key; `hashKey` is
`KeyService.HashKey` (SHA-256, an external primitive kept abstract). -/
def ValidateKey (decrypt : List Nat → Option String) (hashKey : String → String)
    (w : World) (virtualKey : String) : ValidateResult :=
  if ¬ ("lum_".toList.isPrefixOf virtualKey.toList) then .errInvalidKey
  else
    let keyHash := hashKey virtualKey
    match w.cache keyHash with
    | .error e => .errCache e
    | .ok (some config) => .ok config
    | .ok none =>
      match GetVirtualKeyByHash w.dbRows keyHash with
      | none => .errInvalidKey
      | some key =>
        if key.revokedAt.isSome then .errKeyRevoked
        else
          match decryptAll decrypt
              (w.dbProviders.filter fun p => p.userID == key.userID) with
          | none => .errDecryption
          | some providers =>
            .ok { keyID := key.id, userID := key.userID, name := key.name,
                  allowedModels := key.allowedModels, providers := providers,
                  budgetLimit := key.budgetLimit,
                  currentSpend := key.currentSpend }

/-- Embedding of `DB.RevokeVirtualKey`: stamp `revoked_at = NOW()` on
the row with the given id. -/
def RevokeVirtualKeyRows (rows : List VirtualKey) (id : String) (now : ℚ) :
    List VirtualKey :=
  rows.map fun k => if k.id = id then { k with revokedAt := some now } else k

/-- Embedding of `KeyService.RevokeKey`: verify ownership, stamp the
revocation, purge the cache entry for the key's hash.  The source
swallows a cache-delete failure; the model shows the successful purge
(the stale-cache case is exercised through `World.cache` directly). -/
def RevokeKey (w : World) (keyID userID : String) (now : ℚ) :
    Except String World :=
  match w.dbRows.find? (fun k => k.id == keyID) with
  | none => .error "key not found"
  | some key =>
    if key.userID ≠ userID then .error "unauthorized"
    else .ok { w with
      dbRows := RevokeVirtualKeyRows w.dbRows keyID now,
      cache := fun h => if h = key.keyHash then .ok none else w.cache h }

/-- Embedding of the row-level effect of `DB.UpdateVirtualKey`: only
provided fields are written, and a provided budget cap is written as
its (non-null) value — the dynamic SQL appends `name = …`,
`allowed_models = …`, `budget_limit = …` only for non-nil arguments. -/
def UpdateVirtualKeyRow (k : VirtualKey) (id : String) (name : Option String)
    (allowedModels : Option (List String)) (budgetLimit : Option ℚ) :
    VirtualKey :=
  if k.id = id then
    { k with
      name := name.getD k.name,
      allowedModels := allowedModels.getD k.allowedModels,
      budgetLimit := match budgetLimit with
        | some v => some v
        | none => k.budgetLimit }
  else k

/-- Embedding of `DB.UpdateVirtualKey` over the whole table. -/
def UpdateVirtualKey (rows : List VirtualKey) (id : String)
    (name : Option String) (allowedModels : Option (List String))
    (budgetLimit : Option ℚ) : List VirtualKey :=
  rows.map fun k => UpdateVirtualKeyRow k id name allowedModels budgetLimit

/-- Embedding of `KeyService.UpdateKey`: verify ownership, apply the
partial patch, purge the cache entry. -/
def UpdateKey (w : World) (keyID userID : String) (req : UpdateKeyRequest) :
    Except String World :=
  match w.dbRows.find? (fun k => k.id == keyID) with
  | none => .error "key not found"
  | some key =>
    if key.userID ≠ userID then .error "unauthorized"
    else .ok { w with
      dbRows := UpdateVirtualKey w.dbRows keyID req.name req.allowedModels
        req.budgetLimit,
      cache := fun h => if h = key.keyHash then .ok none else w.cache h }

/-! ### Spend accounting (`KeyService.UpdateSpend`)

The two SQL statements are modelled on a per-key accounting state;
`incrOk` / `upsertOk` inject the success or failure of each statement.
The result records the final state, the returned error, and the list of
statements that were actually attempted, in order. -/

/-- Per-key accounting state: the `current_spend` column and the
current-date `daily_stats` row. -/
structure SpendState where
  currentSpend : ℚ
  dailyTokens : Int
  dailyCost : ℚ
  deriving DecidableEq

/-- Embedding of `DB.UpdateKeySpend`:
`current_spend = current_spend + $1`. -/
def UpdateKeySpend (st : SpendState) (amount : ℚ) : SpendState :=
  { st with currentSpend := st.currentSpend + amount }

/-- Embedding of `DB.UpsertDailyStat`: additive upsert on the
current-date row. -/
def UpsertDailyStat (st : SpendState) (tokens : Int) (cost : ℚ) : SpendState :=
  { st with dailyTokens := st.dailyTokens + tokens,
            dailyCost := st.dailyCost + cost }

/-- Embedding of `KeyService.UpdateSpend`: run `UpdateKeySpend`, and
**return immediately on its failure**; only on success run
`UpsertDailyStat`, returning its error if it fails.  A failed statement
leaves the state unchanged; a failure of the second statement does not
undo the first. -/
def UpdateSpend (incrOk upsertOk : Bool) (st : SpendState) (cost : ℚ)
    (tokens : Int) : SpendState × Except String Unit × List String :=
  if incrOk then
    let st1 := UpdateKeySpend st cost
    if upsertOk then
      (UpsertDailyStat st1 tokens cost, Except.ok (),
        ["UpdateKeySpend", "UpsertDailyStat"])
    else
      (st1, Except.error "failed to upsert daily stat",
        ["UpdateKeySpend", "UpsertDailyStat"])
  else
    (st, Except.error "failed to update key spend", ["UpdateKeySpend"])

/-! ### Proxy dispatcher (`proxy/handler.go`)

`proxyUnified` is embedded from the point where the virtual key has
been validated and the JSON body parsed (those stages are I/O:
validation is `ValidateKey` above, and a read/parse failure is a plain
400).  The remaining stages — model extraction, `provider/model`
split, model authorisation, provider-secret lookup, body rewrite,
provider routing — are translated one for one.  The outcome is either
a client error or a dispatch to a concrete upstream target.  The
source contains **no budget check** on this path (`CheckBudget` has no
caller), which the embedding preserves. -/

/-- Split at the first `/` (Go `strings.SplitN(model, "/", 2)`):
`none` when the string holds no slash. -/
def splitFirstSlash : List Char → Option (List Char × List Char)
  | [] => none
  | '/' :: rest => some ([], rest)
  | c :: rest =>
    match splitFirstSlash rest with
    | none => none
    | some (a, b) => some (c :: a, b)

/-- Embedding of `parseModel`: `provider/model`, failing without a
slash. -/
def parseModel (model : String) : Option (String × String) :=
  match splitFirstSlash model.toList with
  | none => none
  | some (p, m) => some (⟨p⟩, ⟨m⟩)

/-- The parsed request body, as far as the dispatcher inspects it: the
`model` field if present as a string, and the `stream` flag. -/
structure ProxyRequest where
  modelField : Option String
  stream : Bool
  deriving DecidableEq

/-- Embedding of `extractModel`: the `model` field, defaulting to
`"unknown"`. -/
def extractModel (req : ProxyRequest) : String := req.modelField.getD "unknown"

/-- An upstream dispatch: target URL, credential headers, rewritten
`model` field of the forwarded body, streaming flag. -/
structure UpstreamTarget where
  url : String
  headers : List (String × String)
  bodyModel : String
  stream : Bool
  deriving DecidableEq

/-- Outcome of the dispatcher before the upstream answers: an error
written to the client, or a dispatched upstream request. -/
inductive ProxyOutcome
  | clientError (status : Nat) (message : String)
  | dispatched (target : UpstreamTarget)
  deriving DecidableEq

/-- Go constant `openAIBaseURL`. -/
def openAIBaseURL : String := "https://api.openai.com"

/-- Go constant `anthropicBaseURL`. -/
def anthropicBaseURL : String := "https://api.anthropic.com"

/-- Embedding of `Handler.proxyUnified` (admission and routing): parse
`provider/model` (400), authorise the model (403), fetch the provider
secret (400), rewrite the body's model, route by the provider prefix —
`openai` to `openAIBaseURL + path` with a bearer header, `anthropic`
always to `/v1/messages` on Anthropic with `x-api-key`, anything else a
400. -/
def proxyUnified (keyConfig : KeyConfig) (req : ProxyRequest) (path : String) :
    ProxyOutcome :=
  let modelField := extractModel req
  match parseModel modelField with
  | none => .clientError 400 "invalid model format"
  | some (provider, actualModel) =>
    if ¬ IsModelAllowed keyConfig modelField then
      .clientError 403 "model not allowed"
    else
      match GetProviderKey keyConfig provider with
      | none => .clientError 400 "provider not configured"
      | some realAPIKey =>
        if provider = "openai" then
          .dispatched {
            url := openAIBaseURL ++ path,
            headers := [("Content-Type", "application/json"),
                        ("Authorization", "Bearer " ++ realAPIKey)],
            bodyModel := actualModel, stream := req.stream }
        else if provider = "anthropic" then
          .dispatched {
            url := anthropicBaseURL ++ "/v1/messages",
            headers := [("Content-Type", "application/json"),
                        ("x-api-key", realAPIKey),
                        ("anthropic-version", "2023-06-01")],
            bodyModel := actualModel, stream := req.stream }
        else .clientError 400 "unsupported provider"

/-- Embedding of `Handler.ChatCompletions`. -/
def ChatCompletions (keyConfig : KeyConfig) (req : ProxyRequest) : ProxyOutcome :=
  proxyUnified keyConfig req "/v1/chat/completions"

/-- Embedding of `Handler.AnthropicMessages`: the route only fixes the
upstream *path* argument; provider selection still happens inside
`proxyUnified` from the body's model prefix. -/
def AnthropicMessages (keyConfig : KeyConfig) (req : ProxyRequest) : ProxyOutcome :=
  proxyUnified keyConfig req "/v1/messages"

/-! ### Cost model (`Handler.calculateCost`) -/

/-- Go `strings.Contains`. -/
def containsSub : List Char → List Char → Bool
  | [], sub => sub.isEmpty
  | c :: rest, sub => sub.isPrefixOf (c :: rest) || containsSub rest sub

/-- Embedding of `Handler.calculateCost`: strip a `provider/` tag from
the model if present, select per-million-token prices by provider and
model name, and charge `prompt/1e6·input + completion/1e6·output`.
Amounts are exact rationals. -/
def calculateCost (provider model : String) (usage : UsageLog) : ℚ :=
  let actualModel := match parseModel model with
    | some pm => pm.2
    | none => model
  let prices : ℚ × ℚ :=
    if provider = "openai" then
      if "gpt-4o".toList.isPrefixOf actualModel.toList then (2.50, 10.00)
      else if "gpt-4".toList.isPrefixOf actualModel.toList then (30.00, 60.00)
      else if "gpt-3.5".toList.isPrefixOf actualModel.toList then (0.50, 1.50)
      else if "o1".toList.isPrefixOf actualModel.toList then (15.00, 60.00)
      else (1.00, 2.00)
    else if provider = "anthropic" then
      if containsSub actualModel.toList "opus".toList then (15.00, 75.00)
      else if containsSub actualModel.toList "sonnet".toList then (3.00, 15.00)
      else if containsSub actualModel.toList "haiku".toList then (0.25, 1.25)
      else (3.00, 15.00)
    else (1.00, 2.00)
  (usage.promptTokens : ℚ) / 1000000 * prices.1 +
    (usage.completionTokens : ℚ) / 1000000 * prices.2

/-- The specification's rate table, written from its words: prices
keyed on the bare model name, `openai` by longest-first name prefix,
`anthropic` by substring, any other provider at `1.00/2.00`.  Used
only to compare `calculateCost` against the spec. -/
def specRates (provider name : String) : ℚ × ℚ :=
  if provider = "openai" then
    if "gpt-4o".toList.isPrefixOf name.toList then (2.50, 10.00)
    else if "gpt-4".toList.isPrefixOf name.toList then (30.00, 60.00)
    else if "gpt-3.5".toList.isPrefixOf name.toList then (0.50, 1.50)
    else if "o1".toList.isPrefixOf name.toList then (15.00, 60.00)
    else (1.00, 2.00)
  else if provider = "anthropic" then
    if containsSub name.toList "opus".toList then (15.00, 75.00)
    else if containsSub name.toList "sonnet".toList then (3.00, 15.00)
    else if containsSub name.toList "haiku".toList then (0.25, 1.25)
    else (3.00, 15.00)
  else (1.00, 2.00)

/-! ### Log pipeline ingress (`logging.Pipeline.Log`) -/

/-- The fields of `models.LogEntry` the pipeline claims touch. -/
structure LogEntry where
  traceID : String
  virtualKeyID : String
  userID : String
  model : String
  provider : String
  statusCode : Int
  costUSD : ℚ
  deriving DecidableEq

/-- Go constant `channelSize` in `logging`. -/
def channelSize : Nat := 1000

/-- Embedding of `Pipeline.Log`: a `select` with a `default` branch on
a buffered channel of capacity `channelSize` — the send succeeds
exactly when the buffer has room, otherwise the entry is dropped (with
a warning) and the queue is untouched.  The boolean reports whether the
entry was enqueued; the caller never blocks either way. -/
def pipelineLog (logChan : List LogEntry) (entry : LogEntry) :
    List LogEntry × Bool :=
  if logChan.length < channelSize then (logChan ++ [entry], true)
  else (logChan, false)

/-! ### Concrete fixtures

Small concrete states used to evaluate the embedded operations on
explicit inputs. -/

/-- A key configuration whose cap is already exceeded
(`current_spend = 10 > 5 = budget_limit`), with an OpenAI credential
and no model restriction. -/
def cfgOverBudget : KeyConfig :=
  { keyID := "key-1", userID := "user-1", name := "test-key",
    allowedModels := [], providers := [("openai", "sk-test")],
    budgetLimit := some 5, currentSpend := 10 }

/-- A parsed request body asking for `openai/gpt-4o`, not streaming. -/
def reqChat : ProxyRequest := { modelField := some "openai/gpt-4o", stream := false }

/-- A key configuration holding only an OpenAI credential. -/
def cfgOpenAIOnly : KeyConfig :=
  { keyID := "key-2", userID := "user-2", name := "oai-key",
    allowedModels := [], providers := [("openai", "sk-oai")],
    budgetLimit := none, currentSpend := 0 }

/-- A key configuration holding only an Anthropic credential. -/
def cfgAnthropicOnly : KeyConfig :=
  { keyID := "key-3", userID := "user-3", name := "ant-key",
    allowedModels := [], providers := [("anthropic", "sk-ant")],
    budgetLimit := none, currentSpend := 0 }

/-- A parsed request body asking for an Anthropic model. -/
def reqClaude : ProxyRequest :=
  { modelField := some "anthropic/claude-3-haiku-20240307", stream := false }

/-- A live (non-revoked) virtual-key row with hash `h1`. -/
def keyLive : VirtualKey :=
  { id := "key-1", userID := "user-1", name := "k", keyHash := "h1",
    allowedModels := [], budgetLimit := none, currentSpend := 0,
    revokedAt := none }

/-- A world whose cache read always fails while the durable store holds
the live key. -/
def wCacheDown : World :=
  { cache := fun _ => Except.error "redis: connection refused",
    dbRows := [keyLive], dbProviders := [] }

/-- A healthy world: empty cache, one live key. -/
def wLive : World :=
  { cache := fun _ => Except.ok none, dbRows := [keyLive], dbProviders := [] }

/-- A virtual-key row with a budget cap set. -/
def rowBudget : VirtualKey := { keyLive with budgetLimit := some 5 }

/-- A concrete log entry. -/
def entry0 : LogEntry :=
  { traceID := "trace-1", virtualKeyID := "key-1", userID := "user-1",
    model := "openai/gpt-4o", provider := "openai", statusCode := 200,
    costUSD := 0 }

/-- The world produced by revoking `keyLive` in `wLive` at time 1: the
row is stamped and the cache entry for hash `h1` is purged. -/
def wAfterRevoke : World :=
  { cache := fun h => if h = "h1" then Except.ok none else wLive.cache h,
    dbRows := RevokeVirtualKeyRows wLive.dbRows "key-1" 1,
    dbProviders := wLive.dbProviders }

/-! ## Theorems -/

/-! ### Generic list helpers -/

theorem getD_set_self {α : Type} (l : List α) (i : Nat) (b d : α)
    (h : i < l.length) : (l.set i b).getD i d = b := by
  rw [List.getD_eq_getElem?_getD, List.getElem?_eq_getElem (by simpa using h),
    List.getElem_set_self]
  rfl

theorem set_ne_self_of_ne {α : Type} (l : List α) (i : Nat) (b d : α)
    (h : i < l.length) (hb : b ≠ l.getD i d) : l.set i b ≠ l := by
  intro heq
  apply hb
  calc b = (l.set i b).getD i d := (getD_set_self l i b d h).symm
    _ = l.getD i d := by rw [heq]

/-! ### Pattern matching (claim C6) -/

theorem lastIsStar_iff (l : List Char) :
    lastIsStar l = true ↔ l.getLast? = some '*' := by
  unfold lastIsStar
  cases h : l.getLast? with
  | none => simp
  | some c => simp [beq_iff_eq]

theorem matchModelPattern_iff (p m : String) :
    matchModelPattern p m = true ↔
      p = "*" ∨ goMatch p.toList m.toList = true ∨
        (p.toList.getLast? = some '*' ∧
          p.toList.dropLast.isPrefixOf m.toList = true) := by
  unfold matchModelPattern
  split_ifs with h1 h2 h3
  · simp only [true_iff]
    exact Or.inl h1
  · simp only [true_iff]
    exact Or.inr (Or.inl h2)
  · rw [lastIsStar_iff] at h3
    constructor
    · intro h
      exact Or.inr (Or.inr ⟨h3, h⟩)
    · rintro (h | h | ⟨_, h⟩)
      · exact absurd h h1
      · exact absurd h h2
      · exact h
  · simp only [false_iff]
    rintro (h | h | ⟨hs, h⟩)
    · exact h1 h
    · exact h2 h
    · rw [← lastIsStar_iff] at hs
      exact h3 hs

/-- C6: for every key configuration `c` and full-model string `m`,
`IsModelAllowed c m` holds iff the allowed-pattern list is empty, or
some pattern in the list is `*`, or glob-matches `m`, or ends in `*`
and its un-starred part is a literal prefix of `m`. -/
theorem c6_is_model_allowed_iff (c : KeyConfig) (m : String) :
    IsModelAllowed c m = true ↔
      c.allowedModels = [] ∨
        ∃ p ∈ c.allowedModels,
          p = "*" ∨ goMatch p.toList m.toList = true ∨
            (p.toList.getLast? = some '*' ∧
              p.toList.dropLast.isPrefixOf m.toList = true) := by
  unfold IsModelAllowed
  by_cases he : c.allowedModels = []
  · simp [he]
  · rw [if_neg (by simpa [List.isEmpty_iff] using he)]
    simp only [List.any_eq_true, matchModelPattern_iff, he, false_or]

/-! ### Log-pipeline ingress (claim C9) -/

/-- C9: submitting to the pipeline never blocks and never grows the
queue past its capacity of 1,000: below capacity the entry is appended,
at capacity the entry is dropped and the queue is unchanged, and a
queue within capacity stays within capacity. -/
theorem c9_log_nonblocking (logChan : List LogEntry) (entry : LogEntry) :
    (logChan.length < channelSize →
      pipelineLog logChan entry = (logChan ++ [entry], true))
    ∧ (¬ logChan.length < channelSize →
      pipelineLog logChan entry = (logChan, false))
    ∧ (logChan.length ≤ channelSize →
      (pipelineLog logChan entry).1.length ≤ channelSize) := by
  refine ⟨fun h => by simp [pipelineLog, h], fun h => by simp [pipelineLog, h], fun h => ?_⟩
  unfold pipelineLog
  split_ifs with hlt
  · simpa using hlt
  · simpa using h

/-- Evaluation of `c9_log_nonblocking` on the empty queue. -/
theorem c9_log_nonblocking_witness :
    pipelineLog [] entry0 = ([entry0], true) :=
  (c9_log_nonblocking [] entry0).1 (by decide)

/-! ### Budget-cap frame property of key updates (claim C10) -/

/-- C10: `UpdateKey` can never remove a budget cap.  Row level: a row
with a cap keeps some cap after the partial update, and an absent
budget field in the patch leaves the stored cap unchanged.  Service
level: a successful `UpdateKey` rewrites the table exactly through the
row-level partial update (after its ownership check), so the row-level
facts carry over to the service call. -/
theorem c10_budget_cap_preserved :
    (∀ (row : VirtualKey) (keyID : String) (req : UpdateKeyRequest),
      (row.budgetLimit.isSome = true →
        (UpdateVirtualKeyRow row keyID req.name req.allowedModels
          req.budgetLimit).budgetLimit.isSome = true)
      ∧ (req.budgetLimit = none →
        (UpdateVirtualKeyRow row keyID req.name req.allowedModels
          req.budgetLimit).budgetLimit = row.budgetLimit))
    ∧ (∀ (w : World) (keyID userID : String) (req : UpdateKeyRequest)
        (w' : World),
      UpdateKey w keyID userID req = Except.ok w' →
      w'.dbRows = UpdateVirtualKey w.dbRows keyID req.name req.allowedModels
        req.budgetLimit) := by
  constructor
  · intro row keyID req
    constructor
    · intro h
      unfold UpdateVirtualKeyRow
      split_ifs
      · cases hb : req.budgetLimit <;> simp [hb, h]
      · exact h
    · intro h
      unfold UpdateVirtualKeyRow
      split_ifs <;> simp [h]
  · intro w keyID userID req w' h
    unfold UpdateKey at h
    cases hf : w.dbRows.find? (fun k => k.id == keyID) with
    | none => rw [hf] at h; cases h
    | some key =>
      rw [hf] at h
      dsimp only at h
      split_ifs at h with hown
      cases h
      rfl

/-- Evaluation of `c10_budget_cap_preserved` on a concrete capped row
and an empty patch. -/
theorem c10_budget_cap_preserved_witness :
    (UpdateVirtualKeyRow rowBudget "key-1" none none none).budgetLimit.isSome
        = true
    ∧ (UpdateVirtualKeyRow rowBudget "key-1" none none
        none).budgetLimit = rowBudget.budgetLimit :=
  ⟨(c10_budget_cap_preserved.1 rowBudget "key-1" ⟨none, none, none⟩).1
      (by decide),
    (c10_budget_cap_preserved.1 rowBudget "key-1" ⟨none, none, none⟩).2 rfl⟩

/-! ### Spend update sequencing (claim C3) -/

/-- C3 counterexample: when the key-spend increment fails, `UpdateSpend`
returns at once and the daily-stat upsert is **not** attempted — the
attempted-statement trace is just `UpdateKeySpend`, refuting the claim
that both statements are always attempted. -/
theorem c3_counterexample :
    UpdateSpend false true { currentSpend := 0, dailyTokens := 0, dailyCost := 0 }
      (1/10) 30
    = ({ currentSpend := 0, dailyTokens := 0, dailyCost := 0 },
        Except.error "failed to update key spend", ["UpdateKeySpend"]) := rfl

/-- C3 (amended): the daily-stat upsert is attempted exactly when the
key-spend increment succeeds.  On increment failure `UpdateSpend`
returns that error immediately with the state unchanged and without
attempting the upsert; on increment success the upsert is attempted,
and an upsert failure is returned without undoing the increment. -/
theorem c3_update_spend_sequencing (st : SpendState) (cost : ℚ) (tokens : Int) :
    (∀ upsertOk, UpdateSpend false upsertOk st cost tokens
      = (st, Except.error "failed to update key spend", ["UpdateKeySpend"]))
    ∧ UpdateSpend true true st cost tokens
      = (UpsertDailyStat (UpdateKeySpend st cost) tokens cost, Except.ok (),
          ["UpdateKeySpend", "UpsertDailyStat"])
    ∧ UpdateSpend true false st cost tokens
      = (UpdateKeySpend st cost, Except.error "failed to upsert daily stat",
          ["UpdateKeySpend", "UpsertDailyStat"]) :=
  ⟨fun _ => rfl, rfl, rfl⟩

/-! ### Budget enforcement on the proxy path (claim C1) -/

/-- C1: the proxy admission path performs **no** budget check.
`proxyUnified` is invariant under erasing the budget fields of the key
configuration, and on a configuration whose spend (10) already exceeds
its cap (5) — where `CheckBudget` with estimated cost 0 reports
`budget limit exceeded` — the chat route still dispatches the request
to the upstream instead of rejecting it with 403. -/
theorem c1_budget_unenforced :
    (∀ (cfg : KeyConfig) (req : ProxyRequest) (path : String),
      proxyUnified { cfg with budgetLimit := none, currentSpend := 0 } req path
        = proxyUnified cfg req path)
    ∧ CheckBudget cfgOverBudget 0 = Except.error "budget limit exceeded"
    ∧ ChatCompletions cfgOverBudget reqChat
      = ProxyOutcome.dispatched
          { url := "https://api.openai.com/v1/chat/completions",
            headers := [("Content-Type", "application/json"),
                        ("Authorization", "Bearer sk-test")],
            bodyModel := "gpt-4o", stream := false } := by
  refine ⟨fun cfg req path => rfl, ?_, by rfl⟩
  norm_num [CheckBudget, cfgOverBudget]

/-! ### Provider routing on the Anthropic route (claim C5) -/

/-- C5 counterexample: on `POST /anthropic/v1/messages` a body whose
model is `openai/gpt-4o` is dispatched to the **OpenAI** upstream with
the bearer credential header — the provider is not forced to
`anthropic`. -/
theorem c5_counterexample :
    AnthropicMessages cfgOpenAIOnly reqChat
      = ProxyOutcome.dispatched
          { url := "https://api.openai.com/v1/messages",
            headers := [("Content-Type", "application/json"),
                        ("Authorization", "Bearer sk-oai")],
            bodyModel := "gpt-4o", stream := false } := rfl

/-- C5 (amended): the Anthropic route fixes only the upstream *path*
`/v1/messages`; the provider is still selected from the body's model
prefix.  Whenever that prefix is `anthropic` (and the model is allowed
and the credential configured), dispatch goes to the Anthropic upstream
`/v1/messages` with the `x-api-key` header and the rewritten model. -/
theorem c5_anthropic_route (cfg : KeyConfig) (req : ProxyRequest)
    (rest apiKey : String)
    (hparse : parseModel (extractModel req) = some ("anthropic", rest))
    (hallowed : IsModelAllowed cfg (extractModel req) = true)
    (hkey : GetProviderKey cfg "anthropic" = some apiKey) :
    AnthropicMessages cfg req
      = ProxyOutcome.dispatched
          { url := anthropicBaseURL ++ "/v1/messages",
            headers := [("Content-Type", "application/json"),
                        ("x-api-key", apiKey),
                        ("anthropic-version", "2023-06-01")],
            bodyModel := rest, stream := req.stream } := by
  simp [AnthropicMessages, proxyUnified, hparse, hallowed, hkey]

/-- Evaluation of `c5_anthropic_route` on a concrete Anthropic
request. -/
theorem c5_anthropic_route_witness :
    AnthropicMessages cfgAnthropicOnly reqClaude
      = ProxyOutcome.dispatched
          { url := anthropicBaseURL ++ "/v1/messages",
            headers := [("Content-Type", "application/json"),
                        ("x-api-key", "sk-ant"),
                        ("anthropic-version", "2023-06-01")],
            bodyModel := "claude-3-haiku-20240307", stream := false } :=
  c5_anthropic_route cfgAnthropicOnly reqClaude "claude-3-haiku-20240307"
    "sk-ant" rfl rfl rfl

/-! ### Cache failure in `ValidateKey` (claim C2) -/

/-- C2 counterexample: with the cache read failing and the durable
store holding the valid non-revoked key, `ValidateKey` does **not**
fall back to the durable store: it returns the wrapped cache error. -/
theorem c2_counterexample :
    GetVirtualKeyByHash wCacheDown.dbRows "h1" = some keyLive
    ∧ ValidateKey (fun _ => none) (fun _ => "h1") wCacheDown "lum_tok"
      = ValidateResult.errCache "redis: connection refused" :=
  ⟨rfl, rfl⟩

/-- C2 (amended): a cache read **error** is fatal to `ValidateKey` —
it returns the wrapped cache error without consulting the durable
store; only a cache **miss** (a successful read finding nothing) falls
back to the durable store and returns the key configuration built from
the row and its decrypted provider credentials. -/
theorem c2_cache_error_fatal (decrypt : List Nat → Option String)
    (hashKey : String → String) :
    (∀ (w : World) (token e : String),
      "lum_".toList.isPrefixOf token.toList = true →
      w.cache (hashKey token) = Except.error e →
      ValidateKey decrypt hashKey w token = ValidateResult.errCache e)
    ∧ (∀ (w : World) (token : String) (key : VirtualKey)
        (providers : List (String × String)),
      "lum_".toList.isPrefixOf token.toList = true →
      w.cache (hashKey token) = Except.ok none →
      GetVirtualKeyByHash w.dbRows (hashKey token) = some key →
      decryptAll decrypt (w.dbProviders.filter fun p => p.userID == key.userID)
        = some providers →
      ValidateKey decrypt hashKey w token = ValidateResult.ok
        { keyID := key.id, userID := key.userID, name := key.name,
          allowedModels := key.allowedModels, providers := providers,
          budgetLimit := key.budgetLimit,
          currentSpend := key.currentSpend }) := by
  constructor
  · intro w token e htok hcache
    simp [ValidateKey, hcache]
    exact List.isPrefixOf_iff_prefix.mp htok
  · intro w token key providers htok hcache hdb hdec
    have hrev : key.revokedAt = none := by
      unfold GetVirtualKeyByHash at hdb
      have h2 := List.find?_some hdb
      simp only [Bool.and_eq_true, Option.isNone_iff_eq_none] at h2
      exact h2.2
    simp [ValidateKey, hcache, hdb, hrev, hdec]
    exact List.isPrefixOf_iff_prefix.mp htok

/-- Evaluation of `c2_cache_error_fatal` on the concrete cache-down
world. -/
theorem c2_cache_error_fatal_witness :
    ValidateKey (fun _ => none) (fun _ => "h1") wCacheDown "lum_x"
      = ValidateResult.errCache "redis: connection refused" :=
  (c2_cache_error_fatal (fun _ => none) (fun _ => "h1")).1 wCacheDown
    "lum_x" "redis: connection refused" (by decide) rfl

/-! ### Revocation and `ValidateKey` (claim C4) -/

/-- C4 counterexample: revoking the row and validating with a clean
cache yields `errInvalidKey`, not `errKeyRevoked` — the durable lookup
filters revoked rows, so the `revoked` result is unreachable. -/
theorem c4_counterexample :
    RevokeVirtualKeyRows [keyLive] "key-1" 1
        = [{ keyLive with revokedAt := some 1 }]
    ∧ ValidateKey (fun _ => none) (fun _ => "h1")
        { cache := fun _ => Except.ok none,
          dbRows := RevokeVirtualKeyRows [keyLive] "key-1" 1,
          dbProviders := [] } "lum_tok"
      = ValidateResult.errInvalidKey :=
  ⟨rfl, rfl⟩

/-- C4 (amended): after `RevokeKey` succeeds (which purges the key's
cache entry), validating the key's token returns the `invalid` result
(`ErrInvalidKey`), never a key configuration — and not `revoked`,
because the durable lookup filters revoked rows.  `huniq` is the
`key_hash` uniqueness invariant of the store. -/
theorem c4_revoked_validates_invalid (decrypt : List Nat → Option String)
    (hashKey : String → String) (w w' : World) (key : VirtualKey)
    (token : String) (now : ℚ)
    (hhash : hashKey token = key.keyHash)
    (hfind : w.dbRows.find? (fun k => k.id == key.id) = some key)
    (huniq : ∀ k ∈ w.dbRows, k.keyHash = key.keyHash → k.id = key.id)
    (hrev : RevokeKey w key.id key.userID now = Except.ok w') :
    ValidateKey decrypt hashKey w' token = ValidateResult.errInvalidKey := by
  unfold RevokeKey at hrev
  rw [hfind] at hrev
  dsimp only at hrev
  rw [if_neg (by simp)] at hrev
  injection hrev with hw
  subst hw
  have hnone : GetVirtualKeyByHash (RevokeVirtualKeyRows w.dbRows key.id now)
      key.keyHash = none := by
    unfold GetVirtualKeyByHash RevokeVirtualKeyRows
    rw [List.find?_eq_none]
    intro x hx
    rw [List.mem_map] at hx
    obtain ⟨a, ha, rfl⟩ := hx
    by_cases hid : a.id = key.id
    · simp [hid]
    · have hkh : a.keyHash ≠ key.keyHash := fun hh => hid (huniq a ha hh)
      simp [hid, hkh]
  simp [ValidateKey, hhash, hnone]

/-- Evaluation of `c4_revoked_validates_invalid` on the concrete
one-key world. -/
theorem c4_revoked_validates_invalid_witness :
    ValidateKey (fun _ => none) (fun _ => "h1") wAfterRevoke "lum_tok"
      = ValidateResult.errInvalidKey :=
  c4_revoked_validates_invalid (fun _ => none) (fun _ => "h1") wLive
    wAfterRevoke keyLive "lum_tok" 1 rfl rfl (by decide) rfl

/-! ### Sealing and opening credentials (claim C7) -/

theorem getD_append_left {α : Type} (l₁ l₂ : List α) (i : Nat) (d : α)
    (h : i < l₁.length) : (l₁ ++ l₂).getD i d = l₁.getD i d := by
  rw [List.getD_eq_getElem?_getD, List.getD_eq_getElem?_getD,
    List.getElem?_append, if_pos h]

theorem getD_append_right {α : Type} (l₁ l₂ : List α) (i : Nat) (d : α)
    (h : l₁.length ≤ i) :
    (l₁ ++ l₂).getD i d = l₂.getD (i - l₁.length) d := by
  rw [List.getD_eq_getElem?_getD, List.getD_eq_getElem?_getD,
    List.getElem?_append_right h]

theorem gIdeal_roundtrip (nonce p : List Nat) :
    gIdeal.Open nonce (gIdeal.Seal nonce p) = some p := by
  simp [gIdeal, sealTag, Nat.unpair_pair, Denumerable.ofNat_encode]

theorem gIdeal_nonce_auth (nonce nonce2 p : List Nat) (h : nonce ≠ nonce2) :
    gIdeal.Open nonce2 (gIdeal.Seal nonce p) = none := by
  simp [gIdeal, sealTag, Nat.unpair_pair]
  exact fun heq => h heq

theorem gIdeal_body_auth (nonce p : List Nat) (i b : Nat)
    (hi : i < (gIdeal.Seal nonce p).length)
    (hb : b ≠ (gIdeal.Seal nonce p).getD i 0) :
    gIdeal.Open nonce ((gIdeal.Seal nonce p).set i b) = none := by
  have hi2 : i < 2 := by simpa [gIdeal] using hi
  have hcases : i = 0 ∨ i = 1 := by omega
  have hbt : b ≠ sealTag nonce p := by
    rcases hcases with rfl | rfl
    · simpa [gIdeal] using hb
    · simpa [gIdeal] using hb
  rcases hcases with rfl | rfl
  · simp [gIdeal, hbt]
  · simp [gIdeal, Ne.symm hbt]

/-- C7: under the AEAD contract of the cipher (round-trip, nonce
authentication, ciphertext authentication), the repository's wrapper
satisfies the claim: `Decrypt (Encrypt p) = p` for every plaintext;
`Decrypt` fails on every input shorter than the nonce; and `Decrypt`
fails on every output of `Encrypt` with a single position tampered —
whether the tampered byte falls in the prepended nonce or in the sealed
payload. -/
theorem c7_encrypt_decrypt (g : AEAD)
    (hround : ∀ nonce p, g.Open nonce (g.Seal nonce p) = some p)
    (hnonce : ∀ nonce nonce2 p, nonce ≠ nonce2 →
      g.Open nonce2 (g.Seal nonce p) = none)
    (hbody : ∀ nonce p i b, i < (g.Seal nonce p).length →
      b ≠ (g.Seal nonce p).getD i 0 →
      g.Open nonce ((g.Seal nonce p).set i b) = none) :
    (∀ nonce p, nonce.length = g.nonceSize →
      Decrypt g (Encrypt g nonce p) = some p)
    ∧ (∀ c, c.length < g.nonceSize → Decrypt g c = none)
    ∧ (∀ nonce p i b, nonce.length = g.nonceSize →
      i < (Encrypt g nonce p).length →
      b ≠ (Encrypt g nonce p).getD i 0 →
      Decrypt g ((Encrypt g nonce p).set i b) = none) := by
  refine ⟨?_, ?_, ?_⟩
  · intro nonce p hlen
    unfold Decrypt Encrypt
    rw [if_neg (by rw [List.length_append, hlen]; omega)]
    rw [List.take_left' hlen, List.drop_left' hlen]
    exact hround nonce p
  · intro c hc
    unfold Decrypt
    rw [if_pos hc]
  · intro nonce p i b hlen hi hb
    simp only [Encrypt] at hb ⊢
    simp only [Encrypt, List.length_append] at hi
    by_cases hcase : i < nonce.length
    · rw [List.set_append, if_pos hcase]
      have hlen2 : (nonce.set i b).length = g.nonceSize := by
        rw [List.length_set]; exact hlen
      unfold Decrypt
      rw [if_neg (by rw [List.length_append, hlen2]; omega)]
      rw [List.take_left' hlen2, List.drop_left' hlen2]
      have hbne : b ≠ nonce.getD i 0 := by
        rw [getD_append_left _ _ _ _ hcase] at hb
        exact hb
      exact hnonce nonce (nonce.set i b) p
        (fun heq => set_ne_self_of_ne nonce i b 0 hcase hbne heq.symm)
    · push_neg at hcase
      rw [List.set_append, if_neg (by omega)]
      unfold Decrypt
      rw [if_neg (by rw [List.length_append, List.length_set, hlen]; omega)]
      rw [List.take_left' hlen, List.drop_left' hlen]
      apply hbody
      · omega
      · rw [getD_append_right _ _ _ _ hcase] at hb
        exact hb

/-- A concrete 96-bit-style nonce (12 byte positions). -/
def nonce0 : List Nat := [0, 1, 2, 3, 4, 5, 6, 7, 8, 9, 10, 11]

/-- Evaluation of `c7_encrypt_decrypt` on the ideal scheme at a
concrete nonce and plaintext, tampering the first sealed position. -/
theorem c7_encrypt_decrypt_witness :
    Decrypt gIdeal (Encrypt gIdeal nonce0 [7, 8]) = some [7, 8]
    ∧ Decrypt gIdeal [1, 2, 3] = none
    ∧ Decrypt gIdeal
        ((Encrypt gIdeal nonce0 [7, 8]).set 12 (sealTag nonce0 [7, 8] + 1))
      = none := by
  have h := c7_encrypt_decrypt gIdeal gIdeal_roundtrip gIdeal_nonce_auth
    gIdeal_body_auth
  refine ⟨h.1 nonce0 [7, 8] rfl, h.2.1 [1, 2, 3] (by decide), ?_⟩
  refine h.2.2 nonce0 [7, 8] 12 (sealTag nonce0 [7, 8] + 1) rfl ?_ ?_
  · show 12 < (nonce0 ++ gIdeal.Seal nonce0 [7, 8]).length
    rw [List.length_append]
    have h1 : nonce0.length = 12 := rfl
    have h2 : (gIdeal.Seal nonce0 [7, 8]).length = 2 := rfl
    rw [h1, h2]
    omega
  · have hg : (Encrypt gIdeal nonce0 [7, 8]).getD 12 0
        = sealTag nonce0 [7, 8] := rfl
    rw [hg]
    omega

/-! ### Cost computation (claim C8) -/

/-- C8: for every provider and bare model name (no `/`), the computed
cost is `prompt_tokens × input_price / 1e6 +
completion_tokens × output_price / 1e6` with the price pair given by
the specification's rate table; and the spec's concrete example — usage
`{prompt:10, completion:20}` on `openai/gpt-4o` as dispatched by the
handler — costs exactly 2.25e-4 USD. -/
theorem c8_cost_formula :
    (∀ (provider name : String) (usage : UsageLog),
      splitFirstSlash name.toList = none →
      calculateCost provider name usage
        = (usage.promptTokens : ℚ) * (specRates provider name).1 / 1000000
          + (usage.completionTokens : ℚ) * (specRates provider name).2
            / 1000000)
    ∧ calculateCost "openai" "openai/gpt-4o"
        { promptTokens := 10, completionTokens := 20, totalTokens := 30 }
      = 2.25e-4 := by
  constructor
  · intro provider name usage hs
    simp only [calculateCost, specRates, parseModel, hs]
    ring
  · have h1 : parseModel "openai/gpt-4o" = some ("openai", "gpt-4o") := rfl
    have h2 : "gpt-4o".toList.isPrefixOf "gpt-4o".toList = true := by decide
    simp only [calculateCost, h1]
    norm_num [h2]

/-- Evaluation of `c8_cost_formula` on the bare name `gpt-4o`. -/
theorem c8_cost_formula_witness :
    calculateCost "openai" "gpt-4o"
        { promptTokens := 10, completionTokens := 20, totalTokens := 30 }
      = ((10 : Int) : ℚ) * (specRates "openai" "gpt-4o").1 / 1000000
        + ((20 : Int) : ℚ) * (specRates "openai" "gpt-4o").2 / 1000000 :=
  c8_cost_formula.1 "openai" "gpt-4o"
    { promptTokens := 10, completionTokens := 20, totalTokens := 30 } rfl

end Lumina
